import Mathlib

/-!
Verification of the scheduling and playback-continuity engine of
`mediaPlayer.py` (time-window scheduler, per-window persisted playlists,
looping playback, graceful window switching, interrupt/resume protocol).

The embedding below translates the state and the handler methods of
`MainWindow` into pure Lean functions over an explicit state record.
Out-of-scope collaborators (Qt widgets, dialogs, the audio output, CSV
persistence, fullscreen handling) are omitted: they carry no scheduling or
playback-continuity state.  The external media player is represented
through the command boundary the code drives (`setSource`, `play`,
`stop`, `setPosition`, `position`), recorded as a small player state.
Per-window directories and the per-window `order.txt` record are
represented as two finite maps from a window to the list of file names
it holds, at the granularity the code reads and writes them.
-/

namespace MediaPlayer

/-- A time window (a "segment" in the source): start and end in
minutes-of-day, as stored in `self.time_ranges`. -/
abbrev Seg := Nat × Nat

/-- Lexicographic comparison of character lists by code point, the order
Python's `sorted` uses on strings. -/
def strLeAux : List Char → List Char → Bool
  | [], _ => true
  | _ :: _, [] => false
  | a :: as, b :: bs =>
    if a.toNat < b.toNat then true
    else if b.toNat < a.toNat then false
    else strLeAux as bs

/-- Lexicographic comparison of strings by code point. -/
def strLe (a b : String) : Bool := strLeAux a.data b.data

/-- Deterministic lexicographic sort of file names, embedding the
`sorted(files.keys())` call of `load_ordered_files`. -/
def sortNames (l : List String) : List String :=
  List.insertionSort (fun a b => strLe a b = true) l

/-- The extension the `*.mp4` glob pattern selects. -/
def mp4Ext : String := ".mp4"

/-- Whether a file name matches the `*.mp4` glob of `load_ordered_files`
and `any_segment_has_video`. -/
def isMp4 (n : String) : Bool := mp4Ext.data.isSuffixOf n.data

/-- Placeholder name used as an out-of-bounds list default; all accesses
proved below stay in bounds. -/
def noFile : String := ""

/-- Function `has_overlap(ranges, new_range)` from the source:
`any(max(s, ns) < min(e, ne) for s, e in ranges)`. -/
def has_overlap (ranges : List Seg) (new_range : Seg) : Bool :=
  ranges.any (fun r => decide (max r.1 new_range.1 < min r.2 new_range.2))

/-- State of the external media player, seen through the command boundary
the engine drives: current source, position in milliseconds, and whether
it is playing. -/
structure Player where
  source : Option String
  pos : Nat
  playing : Bool
deriving DecidableEq

/-- Command `player.setSource(url)`: loads a new source, resetting
position and leaving the player stopped until `play()` is issued. -/
def playerSetSource (u : String) (_p : Player) : Player :=
  { source := some u, pos := 0, playing := false }

/-- Command `player.play()`. -/
def playerPlay (p : Player) : Player := { p with playing := true }

/-- Command `player.stop()`: stops playback and resets the position. -/
def playerStop (p : Player) : Player := { p with playing := false, pos := 0 }

/-- Command `player.setPosition(ms)`. -/
def playerSetPosition (ms : Nat) (p : Player) : Player := { p with pos := ms }

/-- The tuple `(segment, playlist, index, position_ms, waiting_next_segment)`
stored in `self.interrupt_state` by `start_on_demand`. -/
abbrev Snapshot := Option Seg × List String × Nat × Nat × Option Seg

/-- The mutable state of `MainWindow` relevant to scheduling and playback:
the per-window storage (directory listings and `order.txt` records), the
window set `time_ranges`, the run/interrupt flags, the playback session
fields, the interrupt snapshot, the scheduler timer, the graceful-switch
checkbox, and the main player. -/
structure MState where
  listing : Seg → List String
  order : Seg → List String
  time_ranges : List Seg
  running : Bool
  current_segment : Option Seg
  current_playlist : List String
  current_index : Nat
  waiting_next_segment : Option Seg
  in_interrupt : Bool
  interrupt_state : Option Snapshot
  clock_timer_active : Bool
  graceful : Bool
  player : Player

/-- Method `find_active_segment`: first window with `start <= now < end`
(`now` is passed explicitly in place of the wall clock). -/
def find_active_segment (st : MState) (now : Nat) : Option Seg :=
  st.time_ranges.find? (fun seg => decide (seg.1 ≤ now) && decide (now < seg.2))

/-- The loop of `load_ordered_files` over the names read from `order.txt`:
each recorded name still present in `files` is appended to `ordered` and
popped from `files`; stale names are skipped.  Returns the ordered part
and the remaining files. -/
def popOrdered : List String → List String → List String × List String
  | [], files => ([], files)
  | n :: ns, files =>
    if n ∈ files then
      let po := popOrdered ns (files.erase n)
      (n :: po.1, po.2)
    else
      popOrdered ns files

/-- Method `write_order(seg, names)`: rewrites the `order.txt` record of
`seg` (the file stores one name per line and round-trips the name list). -/
def write_order (st : MState) (seg : Seg) (names : List String) : MState :=
  { st with order := fun w => if w = seg then names else st.order w }

/-- Method `load_ordered_files(seg)`: collects the `*.mp4` files of the
window's directory, orders those named by the `order.txt` record first (in
record order, each consumed once), appends the remaining files sorted
lexicographically, rewrites the record with the merged result, and returns
the merged list together with the updated state. -/
def load_ordered_files (st : MState) (seg : Seg) : List String × MState :=
  let files := (st.listing seg).filter isMp4
  let po := popOrdered (st.order seg) files
  let ordered := po.1 ++ sortNames po.2
  (ordered, write_order st seg ordered)

/-- Method `play_current`: if the playlist is non-empty, set the player
source to the item at `current_index` and play it. -/
def play_current (st : MState) : MState :=
  if st.current_playlist.isEmpty then st
  else
    { st with player :=
        playerPlay (playerSetSource
          (st.current_playlist.getD st.current_index noFile) st.player) }

/-- Method `start_segment(seg)`: makes `seg` current, clears any pending
graceful switch, resolves the playlist, resets the index to 0, and plays
the first item unless the playlist is empty. -/
def start_segment (st : MState) (seg : Seg) : MState :=
  let st1 := { st with current_segment := some seg, waiting_next_segment := none }
  let lof := load_ordered_files st1 seg
  let st2 := { lof.2 with current_playlist := lof.1, current_index := 0 }
  if st2.current_playlist.isEmpty then st2 else play_current st2

/-- Method `check_real_time` (the scheduler tick): does nothing unless
running and not interrupted; finds the active window; if it differs from
the current one, either queues it as `waiting_next_segment` (graceful
mode with a current window) or starts it immediately. -/
def check_real_time (st : MState) (now : Nat) : MState :=
  if !st.running || st.in_interrupt then st
  else
    match find_active_segment st now with
    | none => st
    | some active =>
      if st.current_segment ≠ some active then
        if st.current_segment.isSome && st.graceful then
          { st with waiting_next_segment := some active }
        else
          start_segment st active
      else st

/-- Method `any_segment_has_video`: whether some window's directory holds
at least one `*.mp4` file. -/
def any_segment_has_video (st : MState) : Bool :=
  st.time_ranges.any (fun seg => !((st.listing seg).filter isMp4).isEmpty)

/-- Method `toggle_run`: a start request is rejected, leaving the state
unchanged, when no windows exist or no window has a video; otherwise the
flag flips, starting the scheduler timer and ticking once, or stopping
timer and player and clearing the session. -/
def toggle_run (st : MState) (now : Nat) : MState :=
  if !st.running && st.time_ranges.isEmpty then st
  else if !st.running && !any_segment_has_video st then st
  else
    let st1 := { st with running := !st.running }
    if st1.running then
      check_real_time { st1 with clock_timer_active := true } now
    else
      { st1 with
          clock_timer_active := false,
          player := playerStop st1.player,
          current_segment := none, current_playlist := [],
          current_index := 0, waiting_next_segment := none }

/-- Method `on_media_status`, reached with `end_of_media = true` exactly
when the player reports `QMediaPlayer.EndOfMedia`: ignored unless running
and not interrupted; performs a queued graceful switch if one is pending,
otherwise advances the index modulo the playlist length and plays. -/
def on_media_status (st : MState) (end_of_media : Bool) : MState :=
  if !end_of_media then st
  else if !st.running || st.in_interrupt then st
  else
    match st.waiting_next_segment with
    | some w => start_segment st w
    | none =>
      if st.current_playlist.isEmpty then st
      else
        play_current
          { st with current_index :=
              (st.current_index + 1) % st.current_playlist.length }

/-- Result of `add_segment`: rejected by the invalid-range warning, by the
overlap warning, or accepted. -/
inductive AddResult
  | invalidRange
  | overlap
  | ok
deriving DecidableEq

/-- Lexicographic order on windows, the order Python's `list.sort()` uses
on `(start, end)` tuples. -/
def segLe (a b : Seg) : Bool :=
  decide (a.1 < b.1) || (decide (a.1 = b.1) && decide (a.2 ≤ b.2))

/-- The `self.time_ranges.sort()` call of `add_segment`. -/
def sortRanges (l : List Seg) : List Seg :=
  List.insertionSort (fun a b => segLe a b = true) l

/-- Method `add_segment` with the start/end minutes taken from the time
editors: warns and leaves everything unchanged if `e < s` or if the range
overlaps an existing window; otherwise appends the window, re-sorts the
window list, creates the window directory and writes an empty order
record. -/
def add_segment (st : MState) (s e : Nat) : MState × AddResult :=
  if e < s then (st, AddResult.invalidRange)
  else if has_overlap st.time_ranges (s, e) then (st, AddResult.overlap)
  else
    ({ st with
        time_ranges := sortRanges (st.time_ranges ++ [(s, e)]),
        order := fun w => if w = (s, e) then [] else st.order w },
      AddResult.ok)

/-- Method `add_video(seg, srcs)` with the selected window and the file
names picked in the dialog: returns unchanged on an empty selection;
otherwise copies each source into the window directory, skipping names
already present, then re-resolves the playlist (which rewrites the order
record). -/
def add_video (st : MState) (seg : Seg) (srcs : List String) : MState :=
  if srcs.isEmpty then st
  else
    let listing2 :=
      srcs.foldl (fun acc n => if n ∈ acc then acc else acc ++ [n])
        (st.listing seg)
    let st1 := { st with listing := fun w => if w = seg then listing2 else st.listing w }
    (load_ordered_files st1 seg).2

/-- Method `start_on_demand`: a no-op while already interrupted; otherwise
snapshots `(segment, playlist, index, player position, waiting window)`,
raises the interrupt flag and stops the main player (the on-demand window
itself is an external collaborator). -/
def start_on_demand (st : MState) : MState :=
  if st.in_interrupt then st
  else
    { st with
        interrupt_state := some (st.current_segment, st.current_playlist,
          st.current_index, st.player.pos, st.waiting_next_segment),
        in_interrupt := true,
        player := playerStop st.player }

/-- Method `resume_from_interrupt(terminated)`: clears the interrupt flag;
does nothing further if not running; without a snapshot just ticks the
scheduler; with a snapshot whose window is set, still active and whose
playlist is non-empty, restores the session and re-seeks and plays the
player; otherwise clears the session and ticks the scheduler at once. -/
def resume_from_interrupt (st : MState) (_terminated : Bool) (now : Nat) : MState :=
  let st1 := { st with in_interrupt := false }
  if !st1.running then st1
  else
    match st1.interrupt_state with
    | none => check_real_time st1 now
    | some (seg, plist, idx, pos, wnext) =>
      let st2 := { st1 with interrupt_state := none }
      let active := find_active_segment st2 now
      if seg ≠ none ∧ active = seg ∧ plist ≠ [] then
        let j := min idx (plist.length - 1)
        { st2 with
            current_segment := seg, current_playlist := plist,
            current_index := j, waiting_next_segment := wnext,
            player := playerPlay (playerSetPosition pos
              (playerSetSource (plist.getD j noFile) st2.player)) }
      else
        check_real_time
          { st2 with
              current_segment := none, current_playlist := [],
              current_index := 0, waiting_next_segment := none } now

/-- Iterated `add_segment` requests, used to state the store invariant
over arbitrary operation sequences. -/
def runAdds (st : MState) : List (Nat × Nat) → MState
  | [] => st
  | op :: ops => runAdds (add_segment st op.1 op.2).1 ops

/-- The spec's pairwise non-overlap condition on two windows:
`max(s1,s2) < min(e1,e2)` must be false. -/
def NoOv (a b : Seg) : Prop := ¬ (max a.1 b.1 < min a.2 b.2)

/-- The index invariant of the playback session: the index is in bounds
whenever the playlist is non-empty. -/
def IndexInv (st : MState) : Prop :=
  st.current_playlist ≠ [] → st.current_index < st.current_playlist.length

/-- The merge result claimed by the spec's round-trip property, stated in
the spec's words: the persisted names filtered to the existing items, in
record order, followed by the existing items absent from the record in
lexicographic order. -/
def specRoundTrip (names existing : List String) : List String :=
  names.filter (fun n => decide (n ∈ existing))
    ++ sortNames (existing.filter (fun n => decide (n ∉ names)))

/-- The initial state set up by `MainWindow.__init__` over empty storage:
no windows, not running, idle session, no interrupt, scheduler timer off,
graceful-switch checkbox checked by default, player idle. -/
def initState : MState where
  listing := fun _ => []
  order := fun _ => []
  time_ranges := []
  running := false
  current_segment := none
  current_playlist := []
  current_index := 0
  waiting_next_segment := none
  in_interrupt := false
  interrupt_state := none
  clock_timer_active := false
  graceful := true
  player := { source := none, pos := 0, playing := false }

/-- Storage holding files only in the directory of one window. -/
def singleListing (seg : Seg) (l : List String) : Seg → List String :=
  fun w => if w = seg then l else []

/-! Shared lemmas about the order-record merge of `load_ordered_files`. -/

/-- When the order record has no duplicate names, the consumed part of
the merge is exactly the record filtered to the available files. -/
theorem popOrdered_fst_of_nodup (ns : List String) (files : List String)
    (h : ns.Nodup) :
    (popOrdered ns files).1 = ns.filter (fun n => decide (n ∈ files)) := by
  induction ns generalizing files with
  | nil => simp [popOrdered]
  | cons n ns ih =>
    rcases List.nodup_cons.mp h with ⟨hn, hns⟩
    by_cases hm : n ∈ files
    · simp only [popOrdered, if_pos hm]
      rw [List.filter_cons_of_pos (by simpa using hm)]
      rw [ih (files.erase n) hns]
      congr 1
      apply List.filter_congr
      intro x hx
      have hxn : x ≠ n := fun hEq => hn (hEq ▸ hx)
      simp [List.mem_erase_of_ne hxn]
    · simp only [popOrdered, if_neg hm]
      rw [List.filter_cons_of_neg (by simpa using hm)]
      exact ih files hns

/-- When the directory listing has no duplicate names, the leftover part
of the merge is exactly the files absent from the order record. -/
theorem popOrdered_snd_of_nodup (ns : List String) (files : List String)
    (h : files.Nodup) :
    (popOrdered ns files).2 = files.filter (fun n => decide (n ∉ ns)) := by
  induction ns generalizing files with
  | nil => simp [popOrdered]
  | cons n ns ih =>
    by_cases hm : n ∈ files
    · simp only [popOrdered, if_pos hm]
      rw [ih (files.erase n) (h.erase n)]
      rw [List.Nodup.erase_eq_filter h n]
      rw [List.filter_filter]
      apply List.filter_congr
      intro x hx
      by_cases hxn : x = n
      · subst hxn; simp
      · simp [hxn]
    · simp only [popOrdered, if_neg hm]
      rw [ih files h]
      apply List.filter_congr
      intro x hx
      have hxn : x ≠ n := fun hEq => hm (hEq ▸ hx)
      simp [hxn]

/-- The merge is a permutation of the available files: consumed part plus
leftover part. -/
theorem popOrdered_append_perm (ns : List String) (files : List String) :
    ((popOrdered ns files).1 ++ (popOrdered ns files).2).Perm files := by
  induction ns generalizing files with
  | nil => simp [popOrdered]
  | cons n ns ih =>
    by_cases hm : n ∈ files
    · simp only [popOrdered, if_pos hm, List.cons_append]
      exact ((ih (files.erase n)).cons n).trans (List.perm_cons_erase hm).symm
    · simp only [popOrdered, if_neg hm]
      exact ih files

/-- The resolved playlist is a permutation of the `*.mp4` files present
in the window directory. -/
theorem load_ordered_files_fst_perm (st : MState) (seg : Seg) :
    ((load_ordered_files st seg).1).Perm ((st.listing seg).filter isMp4) := by
  have hs : (sortNames (popOrdered (st.order seg)
      ((st.listing seg).filter isMp4)).2).Perm
      (popOrdered (st.order seg) ((st.listing seg).filter isMp4)).2 :=
    List.perm_insertionSort _ _
  exact (List.Perm.append_left _ hs).trans (popOrdered_append_perm _ _)

/-- Every member of a resolved playlist is a `*.mp4` file of the window
directory. -/
theorem mem_of_mem_load_ordered_files (st : MState) (seg : Seg) (n : String)
    (h : n ∈ (load_ordered_files st seg).1) :
    n ∈ (st.listing seg).filter isMp4 :=
  (load_ordered_files_fst_perm st seg).mem_iff.mp h

/-- A resolved playlist has no duplicate entries when the directory
listing has none. -/
theorem load_ordered_files_fst_nodup (st : MState) (seg : Seg)
    (h : (st.listing seg).Nodup) :
    ((load_ordered_files st seg).1).Nodup :=
  (h.filter isMp4).perm (load_ordered_files_fst_perm st seg).symm

/-- C5 counterexample: with storage holding `a.mp4` and `b.mkv`,
`set_order` to `[a.mp4, a.mp4, b.mkv]` followed by `resolve` returns
`[a.mp4]`, not the persisted names filtered to the items present in the
storage location: a duplicated record entry is consumed only once, and a
present non-mp4 item named by the record is dropped. -/
theorem c5_round_trip_cex :
    (load_ordered_files
        (write_order
          { initState with listing := singleListing (540, 600) ["a.mp4", "b.mkv"] }
          (540, 600) ["a.mp4", "a.mp4", "b.mkv"])
        (540, 600)).1 ≠
      specRoundTrip ["a.mp4", "a.mp4", "b.mkv"]
        (({ initState with listing := singleListing (540, 600) ["a.mp4", "b.mkv"] }
          : MState).listing (540, 600)) := by
  decide

/-- C5 (amended): for a duplicate-free list of names, `set_order(w,
names)` followed by `resolve(w)` returns `names` filtered to the `*.mp4`
items present in the window's storage location, in the same relative
order, with the present `*.mp4` items not in `names` appended in
lexicographic order (non-mp4 files are invisible to resolution, and a
duplicated record entry would be consumed only once). -/
theorem c5_round_trip (st : MState) (seg : Seg) (names : List String)
    (hn : names.Nodup) (hl : (st.listing seg).Nodup) :
    (load_ordered_files (write_order st seg names) seg).1 =
      specRoundTrip names ((st.listing seg).filter isMp4) := by
  have horder : (write_order st seg names).order seg = names := by
    simp [write_order]
  have hlist : (write_order st seg names).listing seg = st.listing seg := rfl
  show (popOrdered ((write_order st seg names).order seg)
      (((write_order st seg names).listing seg).filter isMp4)).1
    ++ sortNames (popOrdered ((write_order st seg names).order seg)
      (((write_order st seg names).listing seg).filter isMp4)).2 = _
  rw [horder, hlist]
  rw [popOrdered_fst_of_nodup _ _ hn,
    popOrdered_snd_of_nodup _ _ (hl.filter _)]
  rfl

/-- C5 witness: storage `[b.mp4, a.mp4, c.mkv]`, record set to
`[a.mp4, x.mp4]`; resolution keeps `a.mp4`, drops the stale `x.mp4` and
appends `b.mp4`. -/
theorem c5_round_trip_witness :
    (load_ordered_files
        (write_order
          { initState with
              listing := singleListing (540, 600) ["b.mp4", "a.mp4", "c.mkv"] }
          (540, 600) ["a.mp4", "x.mp4"])
        (540, 600)).1 =
      specRoundTrip ["a.mp4", "x.mp4"]
        ((({ initState with
              listing := singleListing (540, 600) ["b.mp4", "a.mp4", "c.mkv"] }
            : MState).listing (540, 600)).filter isMp4) :=
  c5_round_trip _ (540, 600) ["a.mp4", "x.mp4"] (by decide) (by decide)

/-- C6: resolve is idempotent when the storage is unchanged between the
two calls: the first call re-persists the merged order, and re-resolving
from that record reproduces the identical list. -/
theorem c6_resolve_idempotent (st : MState) (seg : Seg)
    (hl : (st.listing seg).Nodup) :
    (load_ordered_files (load_ordered_files st seg).2 seg).1 =
      (load_ordered_files st seg).1 := by
  have hnd : ((load_ordered_files st seg).1).Nodup :=
    load_ordered_files_fst_nodup st seg hl
  have hperm := load_ordered_files_fst_perm st seg
  have horder : (load_ordered_files st seg).2.order seg =
      (load_ordered_files st seg).1 := by
    simp [load_ordered_files, write_order]
  have hlist : (load_ordered_files st seg).2.listing seg = st.listing seg := rfl
  show (popOrdered ((load_ordered_files st seg).2.order seg)
      (((load_ordered_files st seg).2.listing seg).filter isMp4)).1
    ++ sortNames (popOrdered ((load_ordered_files st seg).2.order seg)
      (((load_ordered_files st seg).2.listing seg).filter isMp4)).2 = _
  rw [horder, hlist]
  rw [popOrdered_fst_of_nodup _ _ hnd,
    popOrdered_snd_of_nodup _ _ (hl.filter _)]
  have hfilter1 : ((load_ordered_files st seg).1).filter
      (fun n => decide (n ∈ (st.listing seg).filter isMp4)) =
      (load_ordered_files st seg).1 := by
    rw [List.filter_eq_self]
    intro a ha
    simpa using hperm.mem_iff.mp ha
  have hfilter2 : ((st.listing seg).filter isMp4).filter
      (fun n => decide (n ∉ (load_ordered_files st seg).1)) = [] := by
    rw [List.filter_eq_nil_iff]
    intro a ha
    simpa using hperm.symm.mem_iff.mp ha
  rw [hfilter1, hfilter2]
  show (load_ordered_files st seg).1 ++ sortNames [] =
    (load_ordered_files st seg).1
  simp [sortNames, List.insertionSort]

/-- C6 witness: storage `[b.mp4, a.mp4]` with a record naming a stale
file; resolving twice yields the same list both times. -/
theorem c6_resolve_idempotent_witness :
    (load_ordered_files
        (load_ordered_files
          { initState with
              listing := singleListing (540, 600) ["b.mp4", "a.mp4"],
              order := singleListing (540, 600) ["zzz.mp4", "a.mp4"] }
          (540, 600)).2
        (540, 600)).1 =
      (load_ordered_files
        { initState with
            listing := singleListing (540, 600) ["b.mp4", "a.mp4"],
            order := singleListing (540, 600) ["zzz.mp4", "a.mp4"] }
        (540, 600)).1 :=
  c6_resolve_idempotent _ (540, 600) (by decide)

/-- The non-overlap condition is symmetric. -/
theorem noOv_symm {a b : Seg} (h : NoOv a b) : NoOv b a := by
  unfold NoOv at h ⊢
  rw [max_comm, min_comm]
  exact h

/-- A failed overlap test means every stored window is non-overlapping
with the new range. -/
theorem noOv_of_has_overlap_false {ranges : List Seg} {s e : Nat}
    (h : has_overlap ranges (s, e) = false) :
    ∀ r ∈ ranges, NoOv r (s, e) := by
  intro r hr hcon
  have : has_overlap ranges (s, e) = true := by
    simp only [has_overlap, List.any_eq_true]
    exact ⟨r, hr, by simpa using hcon⟩
  simp [this] at h

/-- One accepted or rejected `add_segment` preserves pairwise
non-overlap of the stored window set. -/
theorem add_segment_pairwise (st : MState) (s e : Nat)
    (h : st.time_ranges.Pairwise NoOv) :
    ((add_segment st s e).1.time_ranges).Pairwise NoOv := by
  unfold add_segment
  by_cases h1 : e < s
  · simpa [h1] using h
  · by_cases h2 : has_overlap st.time_ranges (s, e) = true
    · simpa [h1, h2] using h
    · have h2f : has_overlap st.time_ranges (s, e) = false := by
        simpa using h2
      simp only [h1, if_false, h2f, Bool.false_eq_true]
      have hperm : (sortRanges (st.time_ranges ++ [(s, e)])).Perm
          (st.time_ranges ++ [(s, e)]) := List.perm_insertionSort _ _
      rw [List.Perm.pairwise_iff (fun hx => noOv_symm hx) hperm]
      rw [List.pairwise_append]
      refine ⟨h, List.pairwise_singleton _ _, ?_⟩
      intro a ha b hb
      rw [List.mem_singleton] at hb
      subst hb
      exact noOv_of_has_overlap_false h2f a ha

/-- C2: starting from a pairwise non-overlapping store, any sequence of
`add_segment` operations keeps every two stored windows non-overlapping
(`max(s1,s2) < min(e1,e2)` never holds), and whenever a requested range
would overlap a stored window, `add_segment` fails with the overlap
warning and stores nothing. -/
theorem c2_no_overlap_invariant (st : MState) (ops : List (Nat × Nat))
    (h : st.time_ranges.Pairwise NoOv) :
    ((runAdds st ops).time_ranges).Pairwise NoOv ∧
      ∀ s e, has_overlap st.time_ranges (s, e) = true →
        add_segment st s e = (st, AddResult.overlap) := by
  constructor
  · induction ops generalizing st with
    | nil => exact h
    | cons op ops ih => exact ih _ (add_segment_pairwise st op.1 op.2 h)
  · intro s e hov
    have hse : s < e := by
      simp only [has_overlap, List.any_eq_true, decide_eq_true_eq] at hov
      obtain ⟨r, _, hlt⟩ := hov
      have h3 : s ≤ max r.1 s := le_max_right _ _
      have h4 : min r.2 e ≤ e := min_le_right _ _
      omega
    have hns : ¬ e < s := by omega
    simp [add_segment, hns, hov]

/-- C2 witness: with `(540,600)` stored, adding `(600,660)` keeps the
store non-overlapping, and the overlapping request `(550,650)` is
rejected with the overlap warning, storing nothing. -/
theorem c2_no_overlap_invariant_witness :
    ((runAdds { initState with time_ranges := [(540, 600)] }
        [(600, 660)]).time_ranges).Pairwise NoOv ∧
      add_segment { initState with time_ranges := [(540, 600)] } 550 650 =
        ({ initState with time_ranges := [(540, 600)] }, AddResult.overlap) := by
  have h := c2_no_overlap_invariant
    { initState with time_ranges := [(540, 600)] } [(600, 660)]
    (List.pairwise_singleton _ _)
  exact ⟨h.1, h.2 550 650 (by decide)⟩

/-- C8 counterexample: adding the degenerate window `(300,300)` to an
empty store is not rejected — it succeeds and the window is stored. -/
theorem c8_degenerate_window_cex :
    (add_segment initState 300 300).2 = AddResult.ok ∧
      (add_segment initState 300 300).1.time_ranges = [(300, 300)] := by
  constructor
  · decide
  · decide

/-- C8 (amended): add_segment fails with the invalid-range warning and
leaves the state unchanged whenever `end < start`; a degenerate request
with `end == start` is not rejected at creation — it never registers as
overlapping, so it is always accepted. -/
theorem c8_range_validation (st : MState) (s e : Nat) :
    (e < s → add_segment st s e = (st, AddResult.invalidRange)) ∧
      (add_segment st s s).2 = AddResult.ok := by
  constructor
  · intro h
    simp [add_segment, h]
  · have hov : has_overlap st.time_ranges (s, s) = false := by
      cases hcase : has_overlap st.time_ranges (s, s) with
      | false => rfl
      | true =>
        exfalso
        simp only [has_overlap, List.any_eq_true, decide_eq_true_eq] at hcase
        obtain ⟨r, _, hlt⟩ := hcase
        have h1 : s ≤ max r.1 s := le_max_right _ _
        have h2 : min r.2 s ≤ s := min_le_right _ _
        omega
    simp [add_segment, hov]

/-- C8 witness: add(5,3) is rejected as an invalid range with the state
unchanged, and the degenerate `add(7,7)` is accepted. -/
theorem c8_range_validation_witness :
    add_segment initState 5 3 = (initState, AddResult.invalidRange) ∧
      (add_segment initState 7 7).2 = AddResult.ok :=
  ⟨(c8_range_validation initState 5 3).1 (by decide),
    (c8_range_validation initState 7 7).2⟩

/-- C9: a start-run request is rejected atomically: if not running and
either no windows are defined or no window directory holds a video,
`toggle_run` returns the state unchanged — `running` stays false, the
scheduler timer is not started, and no playback state is touched. -/
theorem c9_rejected_start_run (st : MState) (now : Nat)
    (hrun : st.running = false)
    (h : st.time_ranges = [] ∨ any_segment_has_video st = false) :
    toggle_run st now = st := by
  rcases h with h | h
  · simp [toggle_run, hrun, h]
  · by_cases hemp : st.time_ranges.isEmpty
    · simp [toggle_run, hrun, hemp]
    · simp [toggle_run, hrun, hemp, h]

/-- C9 witness: on the pristine state (no windows, not running) a
start-run request leaves the state untouched. -/
theorem c9_rejected_start_run_witness :
    toggle_run initState 100 = initState :=
  c9_rejected_start_run initState 100 rfl (Or.inl rfl)

/-- C3: when a scheduler tick runs (running, not interrupted) and finds
an active window that differs from the existing current window, with
graceful-switch mode enabled, the tick only records the active window as
`waiting_next_segment` — current window, playlist, index and player are
untouched — and the next end-of-media event is what performs the switch,
by starting the pending window. -/
theorem c3_graceful_switch_deferral (st : MState) (now : Nat) (a c : Seg)
    (hrun : st.running = true) (hint : st.in_interrupt = false)
    (hact : find_active_segment st now = some a)
    (hcur : st.current_segment = some c) (hne : c ≠ a)
    (hgr : st.graceful = true) :
    check_real_time st now = { st with waiting_next_segment := some a } ∧
      on_media_status { st with waiting_next_segment := some a } true =
        start_segment { st with waiting_next_segment := some a } a := by
  have hdiff : st.current_segment ≠ some a := by
    rw [hcur]
    intro hEq
    exact hne (Option.some_injective _ hEq)
  constructor
  · simp [check_real_time, hrun, hint, hact, hcur, hgr, hne]
  · simp [on_media_status, hrun, hint]

/-- C3 witness: window `(540,600)` current and playing, clock at 610 so
`(600,660)` is active, graceful mode on: the tick only queues
`(600,660)`, and the next end-of-media starts it. -/
theorem c3_graceful_switch_deferral_witness :
    check_real_time
        { initState with
            running := true,
            time_ranges := [(540, 600), (600, 660)],
            current_segment := some (540, 600),
            current_playlist := ["a.mp4"] } 610 =
      { initState with
          running := true,
          time_ranges := [(540, 600), (600, 660)],
          current_segment := some (540, 600),
          current_playlist := ["a.mp4"],
          waiting_next_segment := some (600, 660) } ∧
      on_media_status
        { initState with
            running := true,
            time_ranges := [(540, 600), (600, 660)],
            current_segment := some (540, 600),
            current_playlist := ["a.mp4"],
            waiting_next_segment := some (600, 660) } true =
      start_segment
        { initState with
            running := true,
            time_ranges := [(540, 600), (600, 660)],
            current_segment := some (540, 600),
            current_playlist := ["a.mp4"],
            waiting_next_segment := some (600, 660) } (600, 660) :=
  c3_graceful_switch_deferral _ 610 (600, 660) (540, 600)
    rfl rfl (by decide) rfl (by decide) rfl

/-- One end-of-media event in the looping regime (running, not
interrupted, nothing pending, playlist non-empty): the index advances
modulo the playlist length and the item at the new index is played. -/
theorem on_media_status_advance (s : MState)
    (hrun : s.running = true) (hint : s.in_interrupt = false)
    (hw : s.waiting_next_segment = none) (hne : s.current_playlist ≠ []) :
    on_media_status s true =
      { s with
          current_index := (s.current_index + 1) % s.current_playlist.length,
          player := playerPlay (playerSetSource
            (s.current_playlist.getD
              ((s.current_index + 1) % s.current_playlist.length) noFile)
            s.player) } := by
  have hemp : s.current_playlist.isEmpty = false := by
    simpa [List.isEmpty_iff] using hne
  unfold on_media_status
  rw [hrun, hint, hw]
  simp only [Bool.not_true, Bool.false_or, if_false, hemp]
  unfold play_current
  simp [hemp]

/-- C4: in the looping regime, each end-of-media event advances the index
to `(index+1) mod n` and plays that item; iterating the events from any
in-bounds index yields the cyclic index sequence, e.g. `0,1,2,0,1,2,...`
for a 3-item playlist. -/
theorem c4_looping (st : MState) (n : Nat)
    (hrun : st.running = true) (hint : st.in_interrupt = false)
    (hw : st.waiting_next_segment = none)
    (hlen : st.current_playlist.length = n) (hn : 0 < n)
    (hidx : st.current_index < n) :
    (∀ k, ((fun s => on_media_status s true)^[k] st).current_index =
        (st.current_index + k) % n) ∧
      ((on_media_status st true).player.playing = true ∧
        (on_media_status st true).player.source =
          some (st.current_playlist.getD ((st.current_index + 1) % n) noFile)) := by
  have hne : st.current_playlist ≠ [] := by
    intro hcon
    rw [hcon] at hlen
    simp at hlen
    omega
  have key : ∀ k,
      ((fun s => on_media_status s true)^[k] st).running = true ∧
      ((fun s => on_media_status s true)^[k] st).in_interrupt = false ∧
      ((fun s => on_media_status s true)^[k] st).waiting_next_segment = none ∧
      ((fun s => on_media_status s true)^[k] st).current_playlist =
        st.current_playlist ∧
      ((fun s => on_media_status s true)^[k] st).current_index =
        (st.current_index + k) % n := by
    intro k
    induction k with
    | zero =>
      refine ⟨hrun, hint, hw, rfl, ?_⟩
      simpa using (Nat.mod_eq_of_lt hidx).symm
    | succ k ih =>
      obtain ⟨h1, h2, h3, h4, h5⟩ := ih
      rw [Function.iterate_succ_apply']
      have hkne : ((fun s => on_media_status s true)^[k] st).current_playlist
          ≠ [] := by
        rw [h4]
        exact hne
      rw [on_media_status_advance _ h1 h2 h3 hkne]
      refine ⟨h1, h2, h3, h4, ?_⟩
      show (((fun s => on_media_status s true)^[k] st).current_index + 1) %
          ((fun s => on_media_status s true)^[k] st).current_playlist.length
        = (st.current_index + (k + 1)) % n
      rw [h4, hlen, h5, Nat.mod_add_mod, Nat.add_assoc]
  refine ⟨fun k => (key k).2.2.2.2, ?_⟩
  rw [on_media_status_advance st hrun hint hw hne]
  constructor
  · rfl
  · show some (st.current_playlist.getD
        ((st.current_index + 1) % st.current_playlist.length) noFile) = _
    rw [hlen]

/-- C4 witness: a 3-item playlist at index 0; five end-of-media events
land on index `(0+5) mod 3 = 2`, tracing the sequence `0,1,2,0,1,2,...`. -/
theorem c4_looping_witness :
    ((fun s => on_media_status s true)^[5]
        { initState with
            running := true,
            time_ranges := [(540, 600)],
            current_segment := some (540, 600),
            current_playlist := ["a.mp4", "b.mp4", "c.mp4"] }).current_index
      = 2 := by
  have h := (c4_looping
    { initState with
        running := true,
        time_ranges := [(540, 600)],
        current_segment := some (540, 600),
        current_playlist := ["a.mp4", "b.mp4", "c.mp4"] } 3
    rfl rfl rfl rfl (by decide) (by decide)).1 5
  simpa using h

/-- C1: for an `end_interrupt` delivered while running, with the snapshot
`(oseg, plist, idx, pos, wnext)` pending (and `idx` in bounds, as every
snapshot captured from a valid session is): if the snapshotted window is
non-none, is still the active window at resume time and the snapshotted
playlist is non-empty, the session is restored to exactly the snapshotted
window, playlist, index and pending window and the player is re-seeked to
the snapshotted offset and plays; otherwise the session is reset to idle
with no window and the scheduler tick logic runs at once. -/
theorem c1_interrupt_resume_continuity (st : MState) (term : Bool)
    (now : Nat) (oseg : Option Seg) (plist : List String) (idx pos : Nat)
    (wnext : Option Seg)
    (hrun : st.running = true)
    (hsnap : st.interrupt_state = some (oseg, plist, idx, pos, wnext))
    (hidx : plist ≠ [] → idx < plist.length) :
    (∀ s, oseg = some s → find_active_segment st now = some s →
      plist ≠ [] →
      resume_from_interrupt st term now =
        { st with
            in_interrupt := false, interrupt_state := none,
            current_segment := some s, current_playlist := plist,
            current_index := idx, waiting_next_segment := wnext,
            player := playerPlay (playerSetPosition pos
              (playerSetSource (plist.getD idx noFile) st.player)) }) ∧
    ((oseg = none ∨ find_active_segment st now ≠ oseg ∨ plist = []) →
      resume_from_interrupt st term now =
        check_real_time
          { st with
              in_interrupt := false, interrupt_state := none,
              current_segment := none, current_playlist := [],
              current_index := 0, waiting_next_segment := none } now) := by
  constructor
  · intro s hs hact hne
    subst hs
    have hmin : min idx (plist.length - 1) = idx := by
      have := hidx hne
      omega
    have hact2 : find_active_segment
        { st with
            running := true, in_interrupt := false, interrupt_state := none }
        now = some s := hact
    simp [resume_from_interrupt, hrun, hsnap, hact2, hne, hmin]
  · intro hcase
    have hneg : ¬ ((oseg ≠ none) ∧ find_active_segment st now = oseg ∧
        plist ≠ []) := by
      rcases hcase with h | h | h
      · intro hc
        exact hc.1 h
      · intro hc
        exact h hc.2.1
      · intro hc
        exact hc.2.2 h
    have hneg2 : ¬ ((oseg ≠ none) ∧ find_active_segment
        { st with
            running := true, in_interrupt := false, interrupt_state := none }
        now = oseg ∧ plist ≠ []) := by
      intro hc
      exact hneg ⟨hc.1, hc.2.1, hc.2.2⟩
    simp only [resume_from_interrupt, hrun, hsnap]
    simp only [Bool.not_true, if_false, Bool.false_eq_true]
    rw [if_neg hneg2]

/-- C1 witness: window `(540,600)` still active at resume time (clock at
550), snapshot at index 1, offset 30000 ms: the session resumes that
window at index 1, seeks to 30000 and plays. -/
theorem c1_interrupt_resume_continuity_witness :
    resume_from_interrupt
        { initState with
            running := true,
            time_ranges := [(540, 600)],
            in_interrupt := true,
            interrupt_state :=
              some (some (540, 600), ["a.mp4", "b.mp4"], 1, 30000, none) }
        true 550 =
      { initState with
          running := true,
          time_ranges := [(540, 600)],
          in_interrupt := false,
          interrupt_state := none,
          current_segment := some (540, 600),
          current_playlist := ["a.mp4", "b.mp4"],
          current_index := 1,
          waiting_next_segment := none,
          player := playerPlay (playerSetPosition 30000
            (playerSetSource (["a.mp4", "b.mp4"].getD 1 noFile)
              ({ initState with
                  running := true,
                  time_ranges := [(540, 600)],
                  in_interrupt := true,
                  interrupt_state :=
                    some (some (540, 600), ["a.mp4", "b.mp4"], 1, 30000, none) }
                : MState).player)) } :=
  (c1_interrupt_resume_continuity _ true 550 (some (540, 600))
      ["a.mp4", "b.mp4"] 1 30000 none rfl rfl (fun _ => by decide)).1
    (540, 600) rfl (by decide) (by decide)

/-- Lemma: `play_current` touches only the player, so it preserves the index
invariant. -/
theorem indexInv_play_current {st : MState} (h : IndexInv st) :
    IndexInv (play_current st) := by
  unfold play_current
  split
  · exact h
  · exact h

/-- Lemma: `start_segment` establishes the index invariant unconditionally: it
resets the index to 0. -/
theorem indexInv_start_segment (st : MState) (seg : Seg) :
    IndexInv (start_segment st seg) := by
  simp only [start_segment]
  split
  · next hemp =>
    intro hne
    exact absurd (List.isEmpty_iff.mp hemp) hne
  · next hemp =>
    apply indexInv_play_current
    intro hne
    exact List.length_pos.mpr hne

/-- The scheduler tick preserves the index invariant. -/
theorem indexInv_check_real_time {st : MState} (now : Nat)
    (h : IndexInv st) : IndexInv (check_real_time st now) := by
  unfold check_real_time
  split
  · exact h
  · split
    · exact h
    · split
      · split
        · exact h
        · exact indexInv_start_segment st _
      · exact h

/-- The end-of-media handler preserves the index invariant. -/
theorem indexInv_on_media_status {st : MState} (b : Bool) (h : IndexInv st) :
    IndexInv (on_media_status st b) := by
  unfold on_media_status
  split
  · exact h
  · split
    · exact h
    · split
      · exact indexInv_start_segment st _
      · split
        · exact h
        · next hemp =>
          apply indexInv_play_current
          intro _
          show (st.current_index + 1) % st.current_playlist.length <
            st.current_playlist.length
          refine Nat.mod_lt _ (List.length_pos.mpr ?_)
          simpa [List.isEmpty_iff] using hemp

/-- Lemma: `toggle_run` (both the run-start with its immediate tick and the
run-stop that clears the session) preserves the index invariant. -/
theorem indexInv_toggle_run {st : MState} (now : Nat) (h : IndexInv st) :
    IndexInv (toggle_run st now) := by
  simp only [toggle_run]
  split
  · exact h
  · split
    · exact h
    · split
      · exact indexInv_check_real_time now h
      · intro hne
        exact absurd rfl hne

/-- Lemma: `resume_from_interrupt` preserves the index invariant: a restored
index is clamped into bounds, and the reset path clears the playlist. -/
theorem indexInv_resume_from_interrupt {st : MState} (term : Bool)
    (now : Nat) (h : IndexInv st) :
    IndexInv (resume_from_interrupt st term now) := by
  simp only [resume_from_interrupt]
  split
  · exact h
  · split
    · exact indexInv_check_real_time now h
    · next oseg plist idx pos wnext heq =>
      split
      · next hc =>
        intro hne
        show min idx (plist.length - 1) < plist.length
        have hpos : 0 < plist.length := List.length_pos.mpr hc.2.2
        omega
      · exact indexInv_check_real_time now (fun hne => absurd rfl hne)

/-- C7: every playback-state mutation — starting a window, the
end-of-media advancement, the run toggle (including its stop path) and
the resume from interrupt — preserves `0 <= index < len(playlist)`
whenever the playlist is non-empty. -/
theorem c7_index_bounds (st : MState) (seg : Seg) (b term : Bool)
    (now : Nat) (h : IndexInv st) :
    IndexInv (start_segment st seg) ∧ IndexInv (on_media_status st b) ∧
      IndexInv (toggle_run st now) ∧
      IndexInv (resume_from_interrupt st term now) :=
  ⟨indexInv_start_segment st seg, indexInv_on_media_status b h,
    indexInv_toggle_run now h, indexInv_resume_from_interrupt term now h⟩

/-- C7 witness: the invariant holds after each operation applied to the
pristine state. -/
theorem c7_index_bounds_witness :
    IndexInv (start_segment initState (540, 600)) ∧
      IndexInv (on_media_status initState true) ∧
      IndexInv (toggle_run initState 0) ∧
      IndexInv (resume_from_interrupt initState true 0) :=
  c7_index_bounds initState (540, 600) true true 0
    (fun hne => absurd rfl hne)

/-- The copy loop of `add_video` (skip names already present, append the
rest) keeps every previously present name and ends with every source
name present. -/
theorem mem_copy_foldl (srcs : List String) (acc : List String) :
    (∀ x ∈ acc, x ∈ srcs.foldl
      (fun a n => if n ∈ a then a else a ++ [n]) acc) ∧
    (∀ n ∈ srcs, n ∈ srcs.foldl
      (fun a n => if n ∈ a then a else a ++ [n]) acc) := by
  induction srcs generalizing acc with
  | nil =>
    exact ⟨fun x hx => hx, fun n hn => absurd hn (List.not_mem_nil n)⟩
  | cons m ms ih =>
    have hstep : ∀ x ∈ acc, x ∈ (if m ∈ acc then acc else acc ++ [m]) := by
      intro x hx
      split
      · exact hx
      · exact List.mem_append_left _ hx
    have hm : m ∈ (if m ∈ acc then acc else acc ++ [m]) := by
      split
      · next hin => exact hin
      · exact List.mem_append_right _ (List.mem_singleton_self m)
    constructor
    · intro x hx
      exact (ih _).1 x (hstep x hx)
    · intro n hn
      rcases List.mem_cons.mp hn with hn | hn
      · subst hn
        exact (ih _).1 n hm
      · exact (ih _).2 n hn

/-- C10: only `*.mp4` files are playable: every resolved playlist entry
ends in `.mp4`; a run may start only when some window directory holds an
`.mp4` file; and although `add_video` accepts and copies `.mkv`/`.avi`
sources into the window directory, a non-mp4 file never appears in any
resolved playlist. -/
theorem c10_only_mp4_playable (st : MState) (seg w : Seg)
    (srcs : List String) :
    (∀ n, n ∈ (load_ordered_files st seg).1 → isMp4 n = true) ∧
      (any_segment_has_video st = true ↔
        ∃ sg, sg ∈ st.time_ranges ∧
          ∃ n, n ∈ st.listing sg ∧ isMp4 n = true) ∧
      (srcs ≠ [] → ∀ n, n ∈ srcs → n ∈ (add_video st w srcs).listing w) ∧
      (∀ n, isMp4 n = false →
        n ∉ (load_ordered_files (add_video st w srcs) seg).1) := by
  refine ⟨?_, ?_, ?_, ?_⟩
  · intro n hmem
    exact List.of_mem_filter (mem_of_mem_load_ordered_files st seg n hmem)
  · constructor
    · intro h
      simp only [any_segment_has_video, List.any_eq_true] at h
      obtain ⟨sg, hsg, hb⟩ := h
      have hne : (st.listing sg).filter isMp4 ≠ [] := by
        intro hcon
        rw [List.isEmpty_iff.mpr hcon] at hb
        simp at hb
      obtain ⟨n, hn⟩ := List.exists_mem_of_ne_nil _ hne
      exact ⟨sg, hsg, n, List.mem_of_mem_filter hn, List.of_mem_filter hn⟩
    · rintro ⟨sg, hsg, n, hn, hm⟩
      simp only [any_segment_has_video, List.any_eq_true]
      refine ⟨sg, hsg, ?_⟩
      have hmem : n ∈ (st.listing sg).filter isMp4 :=
        List.mem_filter.mpr ⟨hn, hm⟩
      have hne : (st.listing sg).filter isMp4 ≠ [] := by
        intro hcon
        rw [hcon] at hmem
        exact List.not_mem_nil n hmem
      simp [List.isEmpty_iff, hne]
  · intro hne n hn
    have hsrcs : srcs.isEmpty = false := by
      simpa [List.isEmpty_iff] using hne
    show n ∈ (add_video st w srcs).listing w
    simp only [add_video, hsrcs, Bool.false_eq_true, if_false]
    show n ∈ (if w = w then srcs.foldl
      (fun a m => if m ∈ a then a else a ++ [m]) (st.listing w)
      else st.listing w)
    rw [if_pos rfl]
    exact (mem_copy_foldl srcs (st.listing w)).2 n hn
  · intro n hfalse hmem
    have := List.of_mem_filter
      (mem_of_mem_load_ordered_files (add_video st w srcs) seg n hmem)
    rw [hfalse] at this
    exact Bool.false_ne_true this

/-- C10 witness: after adding `b.mkv` and `c.mp4` to window `(540,600)`,
the `.mkv` file is present in the directory but absent from the resolved
playlist. -/
theorem c10_only_mp4_playable_witness :
    ("b.mkv" ∈ (add_video
        { initState with time_ranges := [(540, 600)] }
        (540, 600) ["b.mkv", "c.mp4"]).listing (540, 600)) ∧
      ("b.mkv" ∉ (load_ordered_files
        (add_video { initState with time_ranges := [(540, 600)] }
          (540, 600) ["b.mkv", "c.mp4"])
        (540, 600)).1) :=
  ⟨(c10_only_mp4_playable
      { initState with time_ranges := [(540, 600)] }
      (540, 600) (540, 600) ["b.mkv", "c.mp4"]).2.2.1 (by decide)
      (String.mk ['b', '.', 'm', 'k', 'v']) (by decide),
    (c10_only_mp4_playable
      { initState with time_ranges := [(540, 600)] }
      (540, 600) (540, 600) ["b.mkv", "c.mp4"]).2.2.2
      (String.mk ['b', '.', 'm', 'k', 'v']) (by decide)⟩

end MediaPlayer
